import Mathlib

/-!
Verification of the Semantic_Web_Project pipeline (wiki infobox parsing,
RDF fact-graph construction, SHACL shape synthesis, and CSV/METW
cross-source reconciliation) against its natural-language specification.

The Python sources embedded here are:
  parsers/Step1_parse_all_pages.py   (InfoboxParser)
  parsers/Step2_rdf_generator.py     (TolkienRDFGenerator)
  parsers/Step3_shacl_generator.py   (SHACLShapeGenerator)
  parsers/Step4_enrich_with_metw_and_csv.py (CombinedEnricher)

Machine strings are modelled with Lean String; Python str.strip / str.lower
are modelled for the ASCII range (all inputs exercised by the pipeline's
relevant code paths are ASCII).  Python floats that only carry similarity
scores are modelled as rationals.  rdflib.Graph is a set of triples; we
model it as a duplicate-free-growing list with membership-checked insertion
(rdflib collapses duplicate triples).
-/

namespace SemWeb

/-! ### Python string primitives -/

/-- The six ASCII whitespace characters recognised by Python's str.strip
and by the regex class backslash-s (space, tab, newline, carriage return,
vertical tab, form feed). -/
def isPySpace (c : Char) : Bool :=
  c = ' ' || c = '\t' || c = '\n' || c = '\r' || c = '\x0b' || c = '\x0c'

/-- Python str.strip(): remove leading and trailing whitespace. -/
def pyStrip (s : String) : String :=
  String.mk (((s.toList.dropWhile isPySpace).reverse.dropWhile isPySpace).reverse)

/-- Python str.lower() restricted to ASCII letters. -/
def pyLower (s : String) : String :=
  String.mk (s.toList.map Char.toLower)

/-- Python str.capitalize(): first character uppercased, the rest lowercased. -/
def pyCapitalize (s : String) : String :=
  match s.toList with
  | [] => ""
  | c :: rest => String.mk (c.toUpper :: rest.map Char.toLower)

/-- Containment test on character lists (helper for pyIn). -/
def charListContains (hay pat : List Char) : Bool :=
  match hay with
  | [] => pat.isEmpty
  | _ :: rest => pat.isPrefixOf hay || charListContains rest pat

/-- Python substring test: pat in hay. -/
def pyIn (pat hay : String) : Bool :=
  charListContains hay.toList pat.toList

/-- Python int(s) for decimal integer literals: optional surrounding
whitespace, optional sign, then digits optionally separated by single
underscores (CPython's PEP 515 rule). Returns none when int() would raise. -/
def pyIntDigits : List Char → Option (List Char)
  | [] => none
  | [c] => if c.isDigit then some [c] else none
  | c :: '_' :: rest =>
    if c.isDigit then
      match pyIntDigits rest with
      | some ds => if rest.head?.any Char.isDigit then some (c :: ds) else none
      | none => none
    else none
  | c :: rest =>
    if c.isDigit then
      match pyIntDigits rest with
      | some ds => some (c :: ds)
      | none => none
    else none

/-- Python int(value) on a string, as used by the fact builder. -/
def pyInt (s : String) : Option Int :=
  let t := (pyStrip s).toList
  let core : Option (Bool × List Char) :=
    match t with
    | '-' :: rest => some (true, rest)
    | '+' :: rest => some (false, rest)
    | rest => some (false, rest)
  match core with
  | some (neg, ds) =>
    match pyIntDigits ds with
    | some digits =>
      let n : Nat := digits.foldl (fun acc c => acc * 10 + (c.toNat - '0'.toNat)) 0
      some (if neg then -(n : Int) else (n : Int))
    | none => none
  | none => none

/-- Recursive worker for pyReplace: fuel-driven scan (the fuel starts at
the string length and dominates the number of scan steps, so it never runs
out; it only makes the recursion structural). -/
def pyReplaceAux (pat rep : List Char) : Nat → List Char → List Char
  | _, [] => []
  | 0, l => l
  | fuel + 1, c :: rest =>
    if pat.isPrefixOf (c :: rest) then
      rep ++ pyReplaceAux pat rep fuel (List.drop (pat.length - 1) rest)
    else c :: pyReplaceAux pat rep fuel rest

/-- Python str.replace(pat, rep): replace every non-overlapping occurrence
left to right.  (The degenerate empty pattern, which Python treats as
matching between every character, is not used by this code base and is
modelled as the identity.) -/
def pyReplace (s pat rep : String) : String :=
  if pat.toList.isEmpty then s
  else String.mk (pyReplaceAux pat.toList rep.toList s.toList.length s.toList)

/-- Recursive worker for pySplit, fuel-driven like pyReplaceAux. -/
def pySplitAux (sep : List Char) : Nat → List Char → List Char → List String
  | _, acc, [] => [String.mk acc.reverse]
  | 0, acc, l => [String.mk (acc.reverse ++ l)]
  | fuel + 1, acc, c :: rest =>
    if sep.isPrefixOf (c :: rest) then
      String.mk acc.reverse :: pySplitAux sep fuel [] (List.drop (sep.length - 1) rest)
    else pySplitAux sep fuel (c :: acc) rest

/-- Python str.split(sep) for a non-empty separator: split on every
occurrence, keeping empty tokens. -/
def pySplit (s sep : String) : List String :=
  if sep.toList.isEmpty then [s]
  else pySplitAux sep.toList s.toList.length [] s.toList

/-- Python str.startswith(pre). -/
def pyStartsWith (s pre : String) : Bool :=
  pre.toList.isPrefixOf s.toList

/-- Python dict assignment d[k] = v on an association list: replace the
value in place when the key exists, otherwise append (insertion order is
preserved, as for Python 3.7+ dicts). -/
def dictInsert {α : Type} (d : List (String × α)) (k : String) (v : α) :
    List (String × α) :=
  match d with
  | [] => [(k, v)]
  | (k0, v0) :: rest =>
    if k0 = k then (k, v) :: rest else (k0, v0) :: dictInsert rest k v

/-- Python dict membership / .get on an association list. -/
def dictGet {α : Type} (d : List (String × α)) (k : String) : Option α :=
  match d with
  | [] => none
  | (k0, v0) :: rest => if k0 = k then some v0 else dictGet rest k

/-! ### RDF data model

rdflib terms: URIs and literals.  A literal carries a lexical value
(string, int, or rational for floats), an optional language tag and an
optional datatype URI, mirroring rdflib.Literal(value, lang=..., datatype=...).
-/

/-- The lexical value of an RDF literal. -/
inductive LitVal where
  | str (s : String)
  | int (n : Int)
  | num (q : ℚ)
deriving DecidableEq

/-- An RDF node: URI reference or literal. -/
inductive Node where
  | uri (u : String)
  | lit (v : LitVal) (lang : Option String) (datatype : Option String)
deriving DecidableEq

/-- A subject-predicate-object fact. -/
abbrev Triple : Type := Node × Node × Node

/-- The fact graph: rdflib.Graph is a set of triples; modelled as a list
grown by membership-checked insertion so duplicate adds collapse. -/
abbrev Graph : Type := List Triple

/-- rdflib Graph.add: a graph is a set, adding an existing triple is a no-op. -/
def Graph.add (g : Graph) (t : Triple) : Graph :=
  if t ∈ g then g else g ++ [t]

/-- rdflib graph.objects(s, p): the objects of all facts with subject s and
predicate p. -/
def Graph.objects (g : Graph) (s p : Node) : List Node :=
  (List.filter (fun t => decide (t.1 = s ∧ t.2.1 = p)) g).map (fun t => t.2.2)

/-! ### Namespaces (Step2/Step4 constructors) -/

def baseUri : String := "http://tolkiengateway.semanticweb.org/"

def SCHEMA (s : String) : String := "http://schema.org/" ++ s

def RESOURCE (s : String) : String := baseUri ++ "resource/" ++ s

def PAGE (s : String) : String := baseUri ++ "page/" ++ s

def PROP (s : String) : String := baseUri ++ "property/" ++ s

def METW (s : String) : String := "http://metw.org/card/" ++ s

def xsdInteger : String := "http://www.w3.org/2001/XMLSchema#integer"

def xsdFloat : String := "http://www.w3.org/2001/XMLSchema#float"

def xsdString : String := "http://www.w3.org/2001/XMLSchema#string"

def rdfType : Node := .uri "http://www.w3.org/1999/02/22-rdf-syntax-ns#type"

def rdfsLabel : Node := .uri "http://www.w3.org/2000/01/rdf-schema#label"

/-! ### Step 1 — InfoboxParser (parsers/Step1_parse_all_pages.py) -/

/-- InfoboxParser.key_normalizations (Step1 lines 24-40), reproduced
verbatim: the fixed override table from raw infobox key to canonical key. -/
def keyNormalizations : List (String × String) :=
  [("birth_date", "birthDate"), ("birth_place", "birthPlace"),
   ("death_date", "deathDate"), ("death_place", "deathPlace"),
   ("real_name", "realName"), ("other_names", "otherNames"),
   ("pronunciation", "pronunciation"), ("sail_date", "sailDate"),
   ("sail_ship", "sailShip"), ("lifespan", "lifespan"),
   ("realm", "realm"), ("title", "title"), ("titles", "titles"),
   ("position", "position"), ("affiliation", "affiliation"),
   ("language", "language"), ("height", "height"),
   ("hair", "hair"), ("eyes", "eyes"), ("clothing", "clothing"),
   ("weapons", "weapons"), ("steed", "steed"), ("gallery", "gallery"),
   ("actor", "actor"), ("voice", "voice"), ("culture", "culture"),
   ("gender", "gender"), ("race", "race"), ("spouse", "spouse"),
   ("children", "children"), ("parentage", "parentage"),
   ("siblings", "siblings"), ("physical_description", "physicalDescription"),
   ("notable_for", "notableFor")]

/-- InfoboxParser.normalize_key (Step1 lines 42-49): lowercase, trim,
spaces to underscores, then the override table, else snake_case to
camelCase. -/
def normalizeKey (key : String) : String :=
  let k := pyReplace (pyLower (pyStrip key)) " " "_"
  match dictGet keyNormalizations k with
  | some v => v
  | none =>
    let parts := pySplit k "_"
    if parts.length > 1 then
      match parts with
      | [] => k
      | p :: rest => p ++ String.join (rest.map pyCapitalize)
    else k

/-- One infobox attribute value as stored by parse_infobox_template:
the verbatim (stripped) raw text, the markup-stripped cleaned text, and
the wiki-link targets extracted from the raw text. -/
structure AttrValue where
  raw : String
  cleaned : String
  internal_links : List String
deriving DecidableEq

/-- Collapse every maximal whitespace run to a single space
(the re.sub of backslash-s-plus with a space in clean_wikitext_value).
The flag records whether the scan is inside a whitespace run. -/
def collapseWsAux : Bool → List Char → List Char
  | _, [] => []
  | inRun, c :: rest =>
    if isPySpace c then
      if inRun then collapseWsAux true rest
      else ' ' :: collapseWsAux true rest
    else c :: collapseWsAux false rest

/-- String version of collapseWsAux. -/
def collapseWs (s : String) : String := String.mk (collapseWsAux false s.toList)

/-- InfoboxParser.clean_wikitext_value (Step1 lines 62-73): strip wiki
markup with mwparserfromhell.strip_code, remove citation ref tags, collapse
whitespace, trim.  The two external text transformations — the library's
strip_code and the two ref-tag regex substitutions — are taken as
parameters, since they live outside this repository; the whitespace
collapse and final trim are the repository's own code. -/
def cleanWikitextValue (stripCode stripRefs : String → String) (value : String) : String :=
  pyStrip (collapseWs (stripRefs (stripCode value)))

/-- InfoboxParser.parse_infobox_template, parameter loop (Step1 lines
87-98): for each template parameter, trim the raw value, DROP the
parameter when the trimmed raw value is empty, and otherwise store
raw / cleaned / internal_links under the normalized key.  The cleaner and
link extractor are passed in (clean_wikitext_value's markup stripping
rests on mwparserfromhell; extract_internal_links is a regex findall). -/
def parseInfoboxParams (clean : String → String) (extractLinks : String → List String)
    (templateParams : List (String × String)) : List (String × AttrValue) :=
  templateParams.foldl
    (fun acc kv =>
      let key := pyStrip kv.1
      let value := pyStrip kv.2
      if value = "" then acc
      else dictInsert acc (normalizeKey key)
        ⟨value, clean value, extractLinks value⟩)
    []

/-- A parsed MediaWiki template: its name and named parameters, as
mwparserfromhell would deliver them. -/
structure WikiTemplate where
  name : String
  params : List (String × String)

/-- InfoboxParser.parse_infobox_template (Step1 lines 75-105): select the
first template whose lowercased name starts with "infobox"; absence gives
none; otherwise return the template name and the retained parameters.
(The try/except that maps any parse exception to None is not modelled:
the embedded operations are total.) -/
def parseInfoboxTemplate (clean : String → String) (extractLinks : String → List String)
    (templates : List WikiTemplate) : Option (String × List (String × AttrValue)) :=
  match templates.find? (fun t => pyStartsWith (pyLower (pyStrip t.name)) "infobox") with
  | none => none
  | some t => some (pyStrip t.name, parseInfoboxParams clean extractLinks t.params)

/-! ### Step 2 — TolkienRDFGenerator (parsers/Step2_rdf_generator.py) -/

/-- TolkienRDFGenerator.property_mappings (Step2 lines 41-75): infobox
field to schema.org / custom property URI, reproduced verbatim. -/
def propertyMappings : List (String × String) :=
  [("name", SCHEMA "name"),
   ("birthDate", SCHEMA "birthDate"),
   ("birthPlace", SCHEMA "birthPlace"),
   ("deathDate", SCHEMA "deathDate"),
   ("deathPlace", SCHEMA "deathPlace"),
   ("gender", SCHEMA "gender"),
   ("spouse", SCHEMA "spouse"),
   ("children", SCHEMA "children"),
   ("parent", SCHEMA "parent"),
   ("parentage", SCHEMA "parent"),
   ("siblings", SCHEMA "sibling"),
   ("occupation", SCHEMA "hasOccupation"),
   ("affiliation", SCHEMA "affiliation"),
   ("image", SCHEMA "image"),
   ("description", SCHEMA "description"),
   ("height", SCHEMA "height"),
   ("nationality", SCHEMA "nationality"),
   ("race", PROP "race"),
   ("titles", PROP "title"),
   ("position", PROP "position"),
   ("location", PROP "location"),
   ("language", PROP "language"),
   ("weapon", PROP "weapon"),
   ("weapons", PROP "weapon"),
   ("hair", PROP "hairColor"),
   ("eyes", PROP "eyeColor"),
   ("clothing", PROP "clothing"),
   ("house", PROP "house"),
   ("heritage", PROP "heritage"),
   ("otherNames", SCHEMA "alternateName"),
   ("realName", SCHEMA "alternateName")]

/-- TolkienRDFGenerator.create_uri (Step2 lines 77-95): spaces to
underscores, then the resource / page / base namespace. -/
def createUri (nm : String) (uriType : String) : String :=
  let cleanName := pyReplace nm " " "_"
  if uriType = "resource" then RESOURCE cleanName
  else if uriType = "page" then PAGE cleanName
  else baseUri ++ cleanName

/-- TolkienRDFGenerator.create_typed_literal (Step2 lines 174-202):
datatype inference by field name — date/birth/death fields stay
language-tagged strings; age/height attempt an integer parse; gender is
normalized to Male / Female / Unknown with no language tag and no
datatype; everything else is a language-tagged string. -/
def createTypedLiteral (value : String) (field : String) : Node :=
  if pyIn "date" (pyLower field) || pyIn "birth" (pyLower field)
      || pyIn "death" (pyLower field) then
    .lit (.str value) (some "en") none
  else if pyLower field = "age" ∨ pyLower field = "height" then
    match pyInt value with
    | some n => .lit (.int n) none (some xsdInteger)
    | none => .lit (.str value) (some "en") none
  else if pyLower field = "gender" then
    if pyLower (pyStrip value) = "male" then .lit (.str "Male") none none
    else if pyLower (pyStrip value) = "female" then .lit (.str "Female") none none
    else .lit (.str "Unknown") none none
  else .lit (.str value) (some "en") none

/-- The predicate chosen for an infobox field: the property_mappings
entry, falling back to a generated property URI (Step2 line 161). -/
def propFor (field : String) : Node :=
  .uri ((dictGet propertyMappings field).getD (PROP field))

/-- TolkienRDFGenerator.add_infobox_triples, per-parameter loop (Step2
lines 141-172): skip attributes whose cleaned value is empty or
whitespace-only; when internal links exist emit one reference fact per
link (and no literal); otherwise emit one typed literal fact. -/
def addInfoboxTriples (g : Graph) (resourceUri : String)
    (parameters : List (String × AttrValue)) : Graph :=
  parameters.foldl
    (fun g fv =>
      let field := fv.1
      let cleanedValue := fv.2.cleaned
      let internalLinks := fv.2.internal_links
      if cleanedValue = "" ∨ pyStrip cleanedValue = "" then g
      else if internalLinks ≠ [] then
        internalLinks.foldl
          (fun g link => g.add (.uri resourceUri, propFor field, .uri (createUri link "resource")))
          g
      else g.add (.uri resourceUri, propFor field, createTypedLiteral cleanedValue field))
    g

/-! ### Step 3 — SHACLShapeGenerator (parsers/Step3_shacl_generator.py) -/

/-- A normalized entity as consumed by the shape generator: the class tag
from the infobox template (None when the page had no infobox) and the
infobox attribute map (None when absent).  Mirrors the Step1 output
records. -/
structure NormEntity where
  etype : Option String
  infobox : Option (List (String × AttrValue))

/-- SHACLShapeGenerator.analyze_entities (Step3 lines 43-70), read off as
a count: the number of records with the given class tag whose infobox
parameters contain the given field.  (Each record's parameter dict has
unique keys, so each record contributes at most one to the count; the
value_data truthiness guard in the source is always satisfied here since
a stored attribute value is a non-empty dict.) -/
def propertyUsageCount (entities : List NormEntity) (etype field : String) : Nat :=
  entities.foldl
    (fun n e =>
      match e.infobox with
      | none => n
      | some params =>
        if e.etype = some etype ∧ (dictGet params field).isSome then n + 1 else n)
    0

/-- SHACLShapeGenerator.infer_datatype (Step3 lines 72-87). -/
def inferDatatype (value : String) (field : String) : String :=
  if pyIn "date" (pyLower field) then "xsd:string"
  else if pyLower field = "age" ∨ pyLower field = "height" then
    match pyInt value with
    | some _ => "xsd:integer"
    | none => "xsd:string"
  else if pyLower field = "gender" then "xsd:string"
  else "xsd:string"

/-- One SHACL property constraint of a node shape: its path plus the
optional minCount / datatype / closed value list / nodeKind components
the generator attaches. -/
structure PropertyConstraint where
  path : String
  minCount : Option Nat
  datatype : Option String
  inList : Option (List Node)
  nodeKind : Option String
deriving DecidableEq

/-- create_gender_list (Step3 lines 140-147): the closed value list
Male / Female / Unknown (plain literals). -/
def genderList : List Node :=
  [.lit (.str "Male") none none, .lit (.str "Female") none none,
   .lit (.str "Unknown") none none]

/-- The always-required name constraint of the character shape
(Step3 lines 107-114). -/
def nameConstraint : PropertyConstraint :=
  ⟨SCHEMA "name", some 1, none, none, some "sh:Literal"⟩

/-- The gender closed-value constraint (Step3 lines 117-122). -/
def genderConstraint : PropertyConstraint :=
  ⟨SCHEMA "gender", none, some xsdString, some genderList, none⟩

/-- The race reference-or-literal constraint (Step3 lines 125-129). -/
def raceConstraint : PropertyConstraint :=
  ⟨PROP "race", none, none, none, some "sh:IRIOrLiteral"⟩

/-- The birthPlace reference-or-literal constraint (Step3 lines 132-136). -/
def birthPlaceConstraint : PropertyConstraint :=
  ⟨SCHEMA "birthPlace", none, none, none, some "sh:IRIOrLiteral"⟩

/-- SHACLShapeGenerator.create_character_shape (Step3 lines 89-138) as
the list of property constraints attached to shape:CharacterShape.
The source computes threshold = total_characters * 0.8 but never uses it;
the conditions actually applied are absolute raw counts over the
'infobox character' records: gender > 100, race > 100, birthPlace > 50.
The totalCharacters argument is kept to mirror the source signature. -/
def createCharacterShape (entities : List NormEntity) (totalCharacters : Nat) :
    List PropertyConstraint :=
  let _ := totalCharacters
  [nameConstraint]
  ++ (if propertyUsageCount entities "infobox character" "gender" > 100 then
        [genderConstraint] else [])
  ++ (if propertyUsageCount entities "infobox character" "race" > 100 then
        [raceConstraint] else [])
  ++ (if propertyUsageCount entities "infobox character" "birthPlace" > 50 then
        [birthPlaceConstraint] else [])

/-! ### Step 4 — CombinedEnricher (parsers/Step4_enrich_with_metw_and_csv.py)

The entity index is an association list from normalized name keys to
entity URI strings (a Python dict in insertion order).  difflib's
SequenceMatcher.ratio is external to the repository, so the similarity
kernel is a parameter matcher : String → String → ℚ standing for
SequenceMatcher(None, a, b).ratio(); its values lie in [0, 1].
-/

/-- CombinedEnricher._build_entity_index (Step4 lines 69-90): for every
(entity URI, name) result of the schema:name query, register the
lowercased name, the lowercase-no-spaces form and the form with hyphen,
underscore and dot removed.  Later duplicate keys overwrite earlier
ones. -/
def buildEntityIndex (rows : List (String × String)) : List (String × String) :=
  rows.foldl
    (fun index r =>
      let entityUri := r.1
      let nm := pyLower r.2
      let i1 := dictInsert index nm entityUri
      let i2 := dictInsert i1 (pyReplace nm " " "") entityUri
      dictInsert i2 (pyReplace (pyReplace (pyReplace nm "-" "") "_" "") "." "") entityUri)
    []

/-- CombinedEnricher.similarity_score (Step4 lines 92-94): the similarity
kernel applied to the lowercased strings. -/
def similarityScore (matcher : String → String → ℚ) (s1 s2 : String) : ℚ :=
  matcher (pyLower s1) (pyLower s2)

/-- The fuzzy-match accumulator loop of find_best_match (Step4 lines
110-117): keep the entity with the best score that is strictly better
than the current best and at least the threshold. -/
def fuzzyLoop (matcher : String → String → ℚ) (nm : String) (threshold : ℚ) :
    List (String × String) → Option String × ℚ → Option String × ℚ
  | [], acc => acc
  | kv :: rest, (bestMatch, bestScore) =>
    let score := similarityScore matcher nm kv.1
    if bestScore < score ∧ threshold ≤ score then
      fuzzyLoop matcher nm threshold rest (some kv.2, score)
    else
      fuzzyLoop matcher nm threshold rest (bestMatch, bestScore)

/-- CombinedEnricher.find_best_match (Step4 lines 96-119): exact
lowercased key hit, then exact lowercase-no-spaces hit (both with
confidence 1.0), then the fuzzy loop over all index entries; no match
gives (none, 0). -/
def findBestMatch (matcher : String → String → ℚ) (index : List (String × String))
    (nm : String) (threshold : ℚ) : Option String × ℚ :=
  let nameLower := pyLower nm
  match dictGet index nameLower with
  | some u => (some u, 1)
  | none =>
    let nameNoSpaces := pyReplace nameLower " " ""
    match dictGet index nameNoSpaces with
    | some u => (some u, 1)
    | none =>
      let result := fuzzyLoop matcher nm threshold index (none, 0)
      match result.1 with
      | some _ => result
      | none => (none, 0)

/-- CombinedEnricher.clean_value (Step4 lines 231-238) applied to a
.get() result: None, empty and placeholder values become None, otherwise
the stripped value.  (clean_value receives None when the CSV column is
absent; the not-value guard short-circuits before .strip()). -/
def cleanValue : Option String → Option String
  | none => none
  | some value =>
    if value = "" ∨ pyStrip value = "" then none
    else
      let cleaned := pyStrip value
      if cleaned = "," ∨ cleaned = "-" ∨ cleaned = "" ∨ cleaned = "None"
          ∨ cleaned = "none" then none
      else some cleaned

/-- A CSV row from csv.DictReader: column name to cell value. -/
abbrev CsvRow : Type := List (String × String)

def schemaIsBasedOn : Node := .uri (SCHEMA "isBasedOn")
def schemaBirthDate : Node := .uri (SCHEMA "birthDate")
def schemaDeathDate : Node := .uri (SCHEMA "deathDate")
def schemaGender : Node := .uri (SCHEMA "gender")
def schemaHeight : Node := .uri (SCHEMA "height")
def schemaSpouse : Node := .uri (SCHEMA "spouse")
def propCsvMatchScore : Node := .uri (PROP "csvMatchScore")
def propHairColor : Node := .uri (PROP "hairColor")
def propRace : Node := .uri (PROP "race")
def propRealm : Node := .uri (PROP "realm")
def propRealmName : Node := .uri (PROP "realmName")

/-- The provenance fact stamped by add_csv_character_triples (Step4 lines
245-246 and again 311-312). -/
def csvProvenanceTriple (entityUri : Node) : Triple :=
  (entityUri, schemaIsBasedOn, .lit (.str "LOTR Characters CSV Dataset") (some "en") none)

/-- Provenance stamp (Step4 lines 245-246). -/
def csvProvStep (entityUri : Node) (g : Graph) : Graph :=
  g.add (csvProvenanceTriple entityUri)

/-- Match-confidence stamp for non-exact matches (Step4 lines 248-249). -/
def csvScoreStep (entityUri : Node) (matchScore : ℚ) (g : Graph) : Graph :=
  if matchScore < 1 then
    g.add (entityUri, propCsvMatchScore, .lit (.num matchScore) none (some xsdFloat))
  else g

/-- One single-valued CSV field (birth, death, gender, hair, height;
Step4 lines 251-279): add the language-tagged literal only when the
cleaned value exists and the entity has no fact under the predicate. -/
def csvSimpleField (entityUri : Node) (pred : Node) (v : Option String) (g : Graph) :
    Graph :=
  match cleanValue v with
  | some val =>
    if (g.objects entityUri pred).isEmpty then
      g.add (entityUri, pred, .lit (.str val) (some "en") none)
    else g
  | none => g

/-- The comma-separated race field (Step4 lines 281-287): guarded by
first-write-wins on tgprop:race, each non-empty trimmed token becomes
its own literal fact. -/
def csvRaceStep (entityUri : Node) (v : Option String) (g : Graph) : Graph :=
  match cleanValue v with
  | some race =>
    if (g.objects entityUri propRace).isEmpty then
      (pySplit race ",").foldl
        (fun g r =>
          let singleRace := pyStrip r
          if singleRace ≠ "" then
            g.add (entityUri, propRace, .lit (.str singleRace) (some "en") none)
          else g)
        g
    else g
  | none => g

/-- The comma-separated realm field (Step4 lines 289-297): each non-empty
token yields a reference fact to the realm resource plus a literal name
fact. -/
def csvRealmStep (entityUri : Node) (v : Option String) (g : Graph) : Graph :=
  match cleanValue v with
  | some realm =>
    if (g.objects entityUri propRealm).isEmpty then
      (pySplit realm ",").foldl
        (fun g r =>
          let singleRealm := pyStrip r
          if singleRealm ≠ "" then
            (g.add (entityUri, propRealm, .uri (RESOURCE (pyReplace singleRealm " " "_")))).add
              (entityUri, propRealmName, .lit (.str singleRealm) (some "en") none)
          else g)
        g
    else g
  | none => g

/-- The spouse field (Step4 lines 299-308): recurse into find_best_match
at threshold 0.9, fall back to manufacturing a resource URI from the raw
name. -/
def csvSpouseStep (matcher : String → String → ℚ) (index : List (String × String))
    (entityUri : Node) (v : Option String) (g : Graph) : Graph :=
  match cleanValue v with
  | some spouse =>
    if (g.objects entityUri schemaSpouse).isEmpty then
      match (findBestMatch matcher index spouse (9/10)).1 with
      | some u => g.add (entityUri, schemaSpouse, .uri u)
      | none => g.add (entityUri, schemaSpouse, .uri (RESOURCE (pyReplace spouse " " "_")))
    else g
  | none => g

/-- CombinedEnricher.add_csv_character_triples (Step4 lines 240-314):
provenance, conditional match-score, then the eight guarded attribute
merges, then the second provenance stamp.  (The returned triple count and
the stats bookkeeping are not modelled.) -/
def addCsvCharacterTriples (matcher : String → String → ℚ)
    (index : List (String × String)) (g : Graph) (entityUri : Node)
    (csvData : CsvRow) (matchScore : ℚ) : Graph :=
  let g := csvProvStep entityUri g
  let g := csvScoreStep entityUri matchScore g
  let g := csvSimpleField entityUri schemaBirthDate (dictGet csvData "birth") g
  let g := csvSimpleField entityUri schemaDeathDate (dictGet csvData "death") g
  let g := csvSimpleField entityUri schemaGender (dictGet csvData "gender") g
  let g := csvSimpleField entityUri propHairColor (dictGet csvData "hair") g
  let g := csvSimpleField entityUri schemaHeight (dictGet csvData "height") g
  let g := csvRaceStep entityUri (dictGet csvData "race") g
  let g := csvRealmStep entityUri (dictGet csvData "realm") g
  let g := csvSpouseStep matcher index entityUri (dictGet csvData "spouse") g
  csvProvStep entityUri g

/-- CombinedEnricher.enrich_with_csv (Step4 lines 316-363).  The file
argument is none when the CSV file does not exist on disk (the
cards-file .exists() check): the method prints a warning and returns with
the graph untouched.  Otherwise every row with a non-empty name is
matched and, on success, merged.  The returned string list holds the
warnings printed on the skip path. -/
def enrichWithCsv (matcher : String → String → ℚ) (index : List (String × String))
    (g : Graph) (csvFile : Option (List CsvRow)) (fuzzyThreshold : ℚ) :
    Graph × List String :=
  match csvFile with
  | none => (g, ["WARNING: CSV file not found", "Skipping CSV enrichment..."])
  | some characters =>
    (characters.foldl
      (fun g charData =>
        let nm := pyStrip ((dictGet charData "name").getD "")
        if nm = "" then g
        else
          match findBestMatch matcher index nm fuzzyThreshold with
          | (none, _) => g
          | (some entityUri, matchScore) =>
            addCsvCharacterTriples matcher index g (.uri entityUri) charData matchScore)
      g, [])

/-! ### Step 4 — METW card enrichment -/

/-- A JSON value as loaded from the METW cards file. -/
inductive Json where
  | str (s : String)
  | int (n : Int)
  | num (q : ℚ)
  | bool (b : Bool)
  | null
  | obj (fields : List (String × Json))
  | arr (elems : List Json)

/-- Python str() of a JSON value.  Only the string case is ever observed
by the theorems below; the renderings of composite values stand in for
Python's repr, whose exact text the claims do not touch. -/
def jsonStr : Json → String
  | .str s => s
  | .int n => toString n
  | .num q => toString q
  | .bool b => if b then "True" else "False"
  | .null => "None"
  | .obj _ => "\x7b...\x7d"
  | .arr _ => "[...]"

/-- Python truthiness of a JSON value. -/
def jsonTruthy : Json → Bool
  | .str s => s ≠ ""
  | .int n => n ≠ 0
  | .num q => q ≠ 0
  | .bool b => b
  | .null => false
  | .obj fields => !fields.isEmpty
  | .arr elems => !elems.isEmpty

/-- The nested-set extraction of enrich_with_metw (Step4 lines 138-155):
collect the cards of every top-level set carrying a 'cards' mapping; when
none are found fall back to the flat 'cards' / 'data' list; a top-level
array is used as-is.  (Shapes on which the Python would raise — e.g. a
non-iterable payload — are mapped to the empty card list.) -/
def extractAllCards : Json → List Json
  | .obj fields =>
    let fromSets :=
      fields.foldl
        (fun acc setKv =>
          match setKv.2 with
          | .obj setFields =>
            match dictGet setFields "cards" with
            | some (.obj cards) => acc ++ cards.map (fun c => c.2)
            | _ => acc
          | _ => acc)
        []
    if fromSets.isEmpty then
      match dictGet fields "cards" with
      | some (.arr l) => l
      | some _ => []
      | none =>
        match dictGet fields "data" with
        | some (.arr l) => l
        | _ => []
    else fromSets
  | .arr elems => elems
  | _ => []

/-- The per-card body of enrich_with_metw (Step4 lines 162-222):
multilingual name resolution, fuzzy entity match, card node creation,
entity-card linking, and generic card properties. -/
def processMetwCard (matcher : String → String → ℚ) (index : List (String × String))
    (fuzzyThreshold : ℚ) (g : Graph) (card : Json) : Graph :=
  let cardFields := match card with | .obj f => f | _ => []
  let cardNameObj := (dictGet cardFields "name").getD (.str "")
  let cardNameRaw :=
    match cardNameObj with
    | .obj nameFields =>
      ((dictGet nameFields "en").orElse
        (fun _ => (dictGet nameFields "es").orElse
          (fun _ => dictGet nameFields "fr"))).getD (.str "")
    | j => j
  let cardName := pyStrip (jsonStr cardNameRaw)
  if cardName = "" then g
  else
    match findBestMatch matcher index cardName fuzzyThreshold with
    | (none, _) => g
    | (some entityUri, _) =>
      let cardId := jsonStr ((dictGet cardFields "id").getD (.str (pyReplace cardName " " "_")))
      let cardUri : Node := .uri (METW cardId)
      let g := g.add (cardUri, rdfType, .uri (SCHEMA "Thing"))
      let g := g.add (cardUri, rdfsLabel, .lit (.str cardName) (some "en") none)
      let g := g.add (.uri entityUri, .uri (SCHEMA "subjectOf"), cardUri)
      let g := g.add (.uri entityUri, .uri (PROP "hasCard"), cardUri)
      let g :=
        match dictGet cardFields "type" with
        | some cardType =>
          let ct :=
            match cardType with
            | .obj typeFields => jsonStr ((dictGet typeFields "en").getD (.str (jsonStr cardType)))
            | j => jsonStr j
          g.add (cardUri, .uri (SCHEMA "additionalType"), .lit (.str ct) (some "en") none)
        | none => g
      let g :=
        match dictGet cardFields "alignment" with
        | some alignment =>
          g.add (cardUri, .uri (SCHEMA "additionalProperty"),
            .lit (.str ("alignment: " ++ jsonStr alignment)) (some "en") none)
        | none => g
      cardFields.foldl
        (fun g kv =>
          if kv.1 ∉ ["name", "id", "type", "alignment"] ∧ jsonTruthy kv.2 then
            let propUri : Node := .uri (METW ("card_" ++ kv.1))
            let value :=
              match kv.2 with
              | .obj valueFields => (dictGet valueFields "en").getD (.str (jsonStr kv.2))
              | j => j
            match value with
            | .int n => g.add (cardUri, propUri, .lit (.int n) none none)
            | .num q => g.add (cardUri, propUri, .lit (.num q) none none)
            | j => g.add (cardUri, propUri, .lit (.str (jsonStr j)) (some "en") none)
          else g)
        g

/-- CombinedEnricher.enrich_with_metw (Step4 lines 123-227).  The file
argument is none when the cards file does not exist: the method prints a
warning and returns with the graph untouched; otherwise every extracted
card is processed. -/
def enrichWithMetw (matcher : String → String → ℚ) (index : List (String × String))
    (g : Graph) (cardsFile : Option Json) (fuzzyThreshold : ℚ) :
    Graph × List String :=
  match cardsFile with
  | none => (g, ["WARNING: METW cards file not found", "Skipping METW enrichment..."])
  | some cardsData =>
    ((extractAllCards cardsData).foldl (processMetwCard matcher index fuzzyThreshold) g, [])

/-! ### Graph lemmas -/

theorem mem_add {g : Graph} {t u : Triple} : u ∈ g.add t ↔ u ∈ g ∨ u = t := by
  unfold Graph.add
  by_cases h : t ∈ g
  · simp only [if_pos h]
    constructor
    · exact Or.inl
    · rintro (hu | rfl)
      · exact hu
      · exact h
  · simp [if_neg h]

theorem mem_add_of_mem {g : Graph} {t u : Triple} (h : u ∈ g) : u ∈ g.add t :=
  mem_add.mpr (Or.inl h)

theorem mem_add_self {g : Graph} {t : Triple} : t ∈ g.add t :=
  mem_add.mpr (Or.inr rfl)

theorem objects_add_ne {t : Triple} {s p : Node} (g : Graph)
    (h : t.1 ≠ s ∨ t.2.1 ≠ p) : (g.add t).objects s p = g.objects s p := by
  unfold Graph.add
  by_cases hm : t ∈ g
  · simp [if_pos hm]
  · simp only [if_neg hm, Graph.objects, List.filter_append, List.map_append]
    have : List.filter (fun u => decide (u.1 = s ∧ u.2.1 = p)) [t] = [] := by
      simp only [List.filter]
      rcases h with h | h <;> simp [h]
    rw [this, List.map_nil, List.append_nil]

theorem objects_add_same {t : Triple} {s p : Node} (g : Graph)
    (h1 : t.1 = s) (h2 : t.2.1 = p) (hm : t ∉ g) :
    (g.add t).objects s p = g.objects s p ++ [t.2.2] := by
  unfold Graph.add
  simp only [if_neg hm, Graph.objects, List.filter_append, List.map_append]
  have : List.filter (fun u => decide (u.1 = s ∧ u.2.1 = p)) [t] = [t] := by
    simp [List.filter, h1, h2]
  rw [this, List.map_cons, List.map_nil]

theorem mem_iff_objects {g : Graph} {s p o : Node} :
    (s, p, o) ∈ g ↔ o ∈ g.objects s p := by
  simp only [Graph.objects, List.mem_map, List.mem_filter, decide_eq_true_eq]
  constructor
  · intro h
    exact ⟨(s, p, o), ⟨h, rfl, rfl⟩, rfl⟩
  · rintro ⟨⟨s1, p1, o1⟩, ⟨hmem, h1, h2⟩, h3⟩
    simp only at h1 h2 h3
    rw [← h1, ← h2, ← h3]
    exact hmem

theorem not_mem_of_objects_nil {g : Graph} {s p o : Node}
    (h : g.objects s p = []) : (s, p, o) ∉ g := by
  intro hm
  have := mem_iff_objects.mp hm
  rw [h] at this
  exact List.not_mem_nil o this

/-- A fold whose steps all preserve the objects of (s, p) preserves them. -/
theorem objects_foldl_eq {α : Type} {step : Graph → α → Graph} {l : List α}
    {s p : Node} (h : ∀ g1 x, x ∈ l → (step g1 x).objects s p = g1.objects s p)
    (g : Graph) : (l.foldl step g).objects s p = g.objects s p := by
  induction l generalizing g with
  | nil => rfl
  | cons a rest ih =>
    rw [List.foldl_cons]
    rw [ih (fun g1 x hx => h g1 x (List.mem_cons_of_mem a hx)) (step g a)]
    exact h g a (List.mem_cons_self a rest)

/-- A fold whose steps are all monotone preserves membership. -/
theorem mem_foldl_of_mem {α : Type} {step : Graph → α → Graph} {l : List α}
    {t : Triple} (h : ∀ g1 x, x ∈ l → ∀ u, u ∈ g1 → u ∈ step g1 x)
    (g : Graph) (ht : t ∈ g) : t ∈ l.foldl step g := by
  induction l generalizing g with
  | nil => exact ht
  | cons a rest ih =>
    rw [List.foldl_cons]
    exact ih (fun g1 x hx => h g1 x (List.mem_cons_of_mem a hx)) (step g a)
      (h g a (List.mem_cons_self a rest) t ht)

/-- Membership after folding plain adds of the image of f. -/
theorem mem_foldl_add {α : Type} (f : α → Triple) (l : List α) (g : Graph)
    (t : Triple) :
    t ∈ l.foldl (fun g1 x => g1.add (f x)) g ↔ t ∈ g ∨ ∃ x ∈ l, t = f x := by
  induction l generalizing g with
  | nil => simp
  | cons a rest ih =>
    rw [List.foldl_cons, ih, mem_add]
    constructor
    · rintro ((hg | rfl) | ⟨x, hx, rfl⟩)
      · exact Or.inl hg
      · exact Or.inr ⟨a, List.mem_cons_self a rest, rfl⟩
      · exact Or.inr ⟨x, List.mem_cons_of_mem a hx, rfl⟩
    · rintro (hg | ⟨x, hx, rfl⟩)
      · exact Or.inl (Or.inl hg)
      · rcases List.mem_cons.mp hx with rfl | hx
        · exact Or.inl (Or.inr rfl)
        · exact Or.inr ⟨x, hx, rfl⟩

/-! ### Preservation lemmas for the CSV merge steps

Each lemma says which queried (subject, predicate) slots a merge step
leaves untouched: any slot with a different subject, a different
predicate, or — for the guarded attribute steps — a slot whose existing
facts make the first-write-wins guard refuse the write.
-/

theorem csvProvStep_pres {e s p : Node} (g : Graph)
    (h : s ≠ e ∨ p ≠ schemaIsBasedOn) :
    (csvProvStep e g).objects s p = g.objects s p := by
  apply objects_add_ne
  rcases h with h | h
  · exact Or.inl fun he => h he.symm
  · exact Or.inr fun hp => h hp.symm

theorem csvScoreStep_pres {e s p : Node} {matchScore : ℚ} (g : Graph)
    (h : s ≠ e ∨ p ≠ propCsvMatchScore ∨ ¬ matchScore < 1) :
    (csvScoreStep e matchScore g).objects s p = g.objects s p := by
  unfold csvScoreStep
  by_cases hs : matchScore < 1
  · rw [if_pos hs]
    apply objects_add_ne
    rcases h with h | h | h
    · exact Or.inl fun he => h he.symm
    · exact Or.inr fun hp => h hp.symm
    · exact absurd hs h
  · rw [if_neg hs]

theorem csvSimpleField_pres {e pred s p : Node} {v : Option String} (g : Graph)
    (h : s ≠ e ∨ pred ≠ p ∨ g.objects e pred ≠ []) :
    (csvSimpleField e pred v g).objects s p = g.objects s p := by
  unfold csvSimpleField
  cases cleanValue v with
  | none => rfl
  | some val =>
    dsimp only
    by_cases hg : (g.objects e pred).isEmpty
    · rw [if_pos hg]
      apply objects_add_ne
      rcases h with h | h | h
      · exact Or.inl fun he => h he.symm
      · exact Or.inr h
      · exact absurd (List.isEmpty_iff.mp hg) h
    · rw [if_neg hg]

theorem csvRaceStep_pres {e s p : Node} {v : Option String} (g : Graph)
    (h : s ≠ e ∨ propRace ≠ p ∨ g.objects e propRace ≠ []) :
    (csvRaceStep e v g).objects s p = g.objects s p := by
  unfold csvRaceStep
  cases cleanValue v with
  | none => rfl
  | some race =>
    dsimp only
    by_cases hg : (g.objects e propRace).isEmpty
    · rw [if_pos hg]
      apply objects_foldl_eq
      intro g1 x _
      by_cases hx : pyStrip x ≠ ""
      · simp only [if_pos hx]
        apply objects_add_ne
        rcases h with h | h | h
        · exact Or.inl fun he => h he.symm
        · exact Or.inr h
        · exact absurd (List.isEmpty_iff.mp hg) h
      · simp only [if_neg hx]
    · rw [if_neg hg]

theorem csvRealmStep_pres {e s p : Node} {v : Option String} (g : Graph)
    (h : s ≠ e ∨ (propRealm ≠ p ∧ propRealmName ≠ p) ∨ g.objects e propRealm ≠ []) :
    (csvRealmStep e v g).objects s p = g.objects s p := by
  unfold csvRealmStep
  cases cleanValue v with
  | none => rfl
  | some realm =>
    dsimp only
    by_cases hg : (g.objects e propRealm).isEmpty
    · rw [if_pos hg]
      apply objects_foldl_eq
      intro g1 x _
      by_cases hx : pyStrip x ≠ ""
      · simp only [if_pos hx]
        have hor : ∀ q : Node, (q = propRealm ∨ q = propRealmName) →
            ((e : Node) ≠ s ∨ q ≠ p) := by
          intro q hq
          rcases h with h | h | h
          · exact Or.inl fun he => h he.symm
          · rcases hq with rfl | rfl
            · exact Or.inr h.1
            · exact Or.inr h.2
          · exact absurd (List.isEmpty_iff.mp hg) h
        rw [objects_add_ne _ (hor propRealmName (Or.inr rfl)),
          objects_add_ne _ (hor propRealm (Or.inl rfl))]
      · simp only [if_neg hx]
    · rw [if_neg hg]

theorem csvSpouseStep_pres {matcher : String → String → ℚ}
    {index : List (String × String)} {e s p : Node} {v : Option String} (g : Graph)
    (h : s ≠ e ∨ schemaSpouse ≠ p ∨ g.objects e schemaSpouse ≠ []) :
    (csvSpouseStep matcher index e v g).objects s p = g.objects s p := by
  unfold csvSpouseStep
  cases cleanValue v with
  | none => rfl
  | some spouse =>
    dsimp only
    by_cases hg : (g.objects e schemaSpouse).isEmpty
    · rw [if_pos hg]
      have hne : (e : Node) ≠ s ∨ schemaSpouse ≠ p := by
        rcases h with h | h | h
        · exact Or.inl fun he => h he.symm
        · exact Or.inr h
        · exact absurd (List.isEmpty_iff.mp hg) h
      cases (findBestMatch matcher index spouse (9/10)).1 with
      | some u => exact objects_add_ne _ hne
      | none => exact objects_add_ne _ hne
    · rw [if_neg hg]

/-- add_csv_character_triples writes only facts whose subject is the
matched entity: any other subject's slots are untouched. -/
theorem addCsv_objects_ne_subject (matcher : String → String → ℚ)
    (index : List (String × String)) (g : Graph) (e : Node) (row : CsvRow)
    (score : ℚ) (s p : Node) (hse : s ≠ e) :
    (addCsvCharacterTriples matcher index g e row score).objects s p =
      g.objects s p := by
  unfold addCsvCharacterTriples
  rw [csvProvStep_pres _ (Or.inl hse), csvSpouseStep_pres _ (Or.inl hse),
    csvRealmStep_pres _ (Or.inl hse), csvRaceStep_pres _ (Or.inl hse),
    csvSimpleField_pres _ (Or.inl hse), csvSimpleField_pres _ (Or.inl hse),
    csvSimpleField_pres _ (Or.inl hse), csvSimpleField_pres _ (Or.inl hse),
    csvSimpleField_pres _ (Or.inl hse), csvScoreStep_pres _ (Or.inl hse),
    csvProvStep_pres _ (Or.inl hse)]

/-- On the matched entity itself, add_csv_character_triples preserves every
predicate slot that is not one of the unconditional stamps, is not the
match-score stamp unless the match was non-exact, is distinct from the
realm predicates, and whose own-attribute guard (existing facts under the
queried predicate) blocks the corresponding write. -/
theorem addCsv_objects_pres (matcher : String → String → ℚ)
    (index : List (String × String)) (g : Graph) (e : Node) (row : CsvRow)
    (score : ℚ) (p : Node)
    (h1 : p ≠ schemaIsBasedOn)
    (h2 : p ≠ propCsvMatchScore ∨ ¬ score < 1)
    (h3 : schemaBirthDate ≠ p ∨ g.objects e schemaBirthDate ≠ [])
    (h4 : schemaDeathDate ≠ p ∨ g.objects e schemaDeathDate ≠ [])
    (h5 : schemaGender ≠ p ∨ g.objects e schemaGender ≠ [])
    (h6 : propHairColor ≠ p ∨ g.objects e propHairColor ≠ [])
    (h7 : schemaHeight ≠ p ∨ g.objects e schemaHeight ≠ [])
    (h8 : propRace ≠ p ∨ g.objects e propRace ≠ [])
    (h9 : propRealm ≠ p ∧ propRealmName ≠ p)
    (h10 : schemaSpouse ≠ p ∨ g.objects e schemaSpouse ≠ []) :
    (addCsvCharacterTriples matcher index g e row score).objects e p =
      g.objects e p := by
  simp only [addCsvCharacterTriples]
  set g1 := csvProvStep e g with hg1
  have e1 : g1.objects e p = g.objects e p := csvProvStep_pres _ (Or.inr h1)
  set g2 := csvScoreStep e score g1 with hg2
  have e2 : g2.objects e p = g.objects e p := by
    rw [hg2, csvScoreStep_pres _ (Or.inr h2), e1]
  have lift : ∀ (q : Node), (q ≠ p ∨ g.objects e q ≠ []) →
      ∀ gc : Graph, gc.objects e p = g.objects e p →
      (q ≠ p ∨ gc.objects e q ≠ []) := by
    rintro q (hq | hq) gc hgc
    · exact Or.inl hq
    · rcases em (q = p) with rfl | hqp
      · exact Or.inr (by rw [hgc]; exact hq)
      · exact Or.inl hqp
  set g3 := csvSimpleField e schemaBirthDate (dictGet row "birth") g2 with hg3
  have e3 : g3.objects e p = g.objects e p := by
    rw [hg3, csvSimpleField_pres _ (Or.inr (lift _ h3 g2 e2)), e2]
  set g4 := csvSimpleField e schemaDeathDate (dictGet row "death") g3 with hg4
  have e4 : g4.objects e p = g.objects e p := by
    rw [hg4, csvSimpleField_pres _ (Or.inr (lift _ h4 g3 e3)), e3]
  set g5 := csvSimpleField e schemaGender (dictGet row "gender") g4 with hg5
  have e5 : g5.objects e p = g.objects e p := by
    rw [hg5, csvSimpleField_pres _ (Or.inr (lift _ h5 g4 e4)), e4]
  set g6 := csvSimpleField e propHairColor (dictGet row "hair") g5 with hg6
  have e6 : g6.objects e p = g.objects e p := by
    rw [hg6, csvSimpleField_pres _ (Or.inr (lift _ h6 g5 e5)), e5]
  set g7 := csvSimpleField e schemaHeight (dictGet row "height") g6 with hg7
  have e7 : g7.objects e p = g.objects e p := by
    rw [hg7, csvSimpleField_pres _ (Or.inr (lift _ h7 g6 e6)), e6]
  set g8 := csvRaceStep e (dictGet row "race") g7 with hg8
  have e8 : g8.objects e p = g.objects e p := by
    rw [hg8, csvRaceStep_pres _ (Or.inr (lift _ h8 g7 e7)), e7]
  set g9 := csvRealmStep e (dictGet row "realm") g8 with hg9
  have e9 : g9.objects e p = g.objects e p := by
    rw [hg9, csvRealmStep_pres _ (Or.inr (Or.inl h9)), e8]
  set g10 := csvSpouseStep matcher index e (dictGet row "spouse") g9 with hg10
  have e10 : g10.objects e p = g.objects e p := by
    rw [hg10, csvSpouseStep_pres _ (Or.inr (lift _ h10 g9 e9)), e9]
  rw [csvProvStep_pres _ (Or.inr h1), e10]

/-! ### Monotonicity: the CSV merge steps only add facts -/

theorem csvProvStep_mono {e : Node} {g : Graph} {t : Triple} (h : t ∈ g) :
    t ∈ csvProvStep e g :=
  mem_add_of_mem h

theorem csvScoreStep_mono {e : Node} {score : ℚ} {g : Graph} {t : Triple}
    (h : t ∈ g) : t ∈ csvScoreStep e score g := by
  unfold csvScoreStep
  by_cases hs : score < 1
  · rw [if_pos hs]; exact mem_add_of_mem h
  · rw [if_neg hs]; exact h

theorem csvSimpleField_mono {e pred : Node} {v : Option String} {g : Graph}
    {t : Triple} (h : t ∈ g) : t ∈ csvSimpleField e pred v g := by
  unfold csvSimpleField
  cases cleanValue v with
  | none => exact h
  | some val =>
    dsimp only
    by_cases hg : (g.objects e pred).isEmpty
    · rw [if_pos hg]; exact mem_add_of_mem h
    · rw [if_neg hg]; exact h

theorem csvRaceStep_mono {e : Node} {v : Option String} {g : Graph}
    {t : Triple} (h : t ∈ g) : t ∈ csvRaceStep e v g := by
  unfold csvRaceStep
  cases cleanValue v with
  | none => exact h
  | some race =>
    dsimp only
    by_cases hg : (g.objects e propRace).isEmpty
    · rw [if_pos hg]
      refine mem_foldl_of_mem (fun g1 x _ u hu => ?_) g h
      by_cases hx : pyStrip x ≠ ""
      · simp only [if_pos hx]; exact mem_add_of_mem hu
      · simp only [if_neg hx]; exact hu
    · rw [if_neg hg]; exact h

theorem csvRealmStep_mono {e : Node} {v : Option String} {g : Graph}
    {t : Triple} (h : t ∈ g) : t ∈ csvRealmStep e v g := by
  unfold csvRealmStep
  cases cleanValue v with
  | none => exact h
  | some realm =>
    dsimp only
    by_cases hg : (g.objects e propRealm).isEmpty
    · rw [if_pos hg]
      refine mem_foldl_of_mem (fun g1 x _ u hu => ?_) g h
      by_cases hx : pyStrip x ≠ ""
      · simp only [if_pos hx]; exact mem_add_of_mem (mem_add_of_mem hu)
      · simp only [if_neg hx]; exact hu
    · rw [if_neg hg]; exact h

theorem csvSpouseStep_mono {matcher : String → String → ℚ}
    {index : List (String × String)} {e : Node} {v : Option String} {g : Graph}
    {t : Triple} (h : t ∈ g) : t ∈ csvSpouseStep matcher index e v g := by
  unfold csvSpouseStep
  cases cleanValue v with
  | none => exact h
  | some spouse =>
    dsimp only
    by_cases hg : (g.objects e schemaSpouse).isEmpty
    · rw [if_pos hg]
      cases (findBestMatch matcher index spouse (9/10)).1 with
      | some u => exact mem_add_of_mem h
      | none => exact mem_add_of_mem h
    · rw [if_neg hg]; exact h

/-- The match-confidence fact is present after a non-exact merge
(Step4 lines 248-249). -/
theorem addCsv_scoreTriple_mem (matcher : String → String → ℚ)
    (index : List (String × String)) (g : Graph) (e : Node) (row : CsvRow)
    (score : ℚ) (h : score < 1) :
    (e, propCsvMatchScore, .lit (.num score) none (some xsdFloat)) ∈
      addCsvCharacterTriples matcher index g e row score := by
  simp only [addCsvCharacterTriples]
  apply csvProvStep_mono
  apply csvSpouseStep_mono
  apply csvRealmStep_mono
  apply csvRaceStep_mono
  apply csvSimpleField_mono
  apply csvSimpleField_mono
  apply csvSimpleField_mono
  apply csvSimpleField_mono
  apply csvSimpleField_mono
  unfold csvScoreStep
  rw [if_pos h]
  exact mem_add_self

/-- A non-exact merge appends exactly one match-confidence object when the
fact was not present before. -/
theorem addCsv_scoreTriple_exact (matcher : String → String → ℚ)
    (index : List (String × String)) (g : Graph) (e : Node) (row : CsvRow)
    (score : ℚ) (h : score < 1)
    (hnot : (e, propCsvMatchScore, .lit (.num score) none (some xsdFloat)) ∉ g) :
    (addCsvCharacterTriples matcher index g e row score).objects e
        propCsvMatchScore =
      g.objects e propCsvMatchScore ++ [.lit (.num score) none (some xsdFloat)] := by
  simp only [addCsvCharacterTriples]
  set g1 := csvProvStep e g with hg1
  have e1 : g1.objects e propCsvMatchScore = g.objects e propCsvMatchScore :=
    csvProvStep_pres _ (Or.inr (by decide))
  have hnot1 : (e, propCsvMatchScore, .lit (.num score) none (some xsdFloat)) ∉ g1 := by
    intro hmem
    rcases mem_add.mp hmem with hmem | heq
    · exact hnot hmem
    · unfold csvProvenanceTriple at heq
      have := congrArg (fun t : Triple => t.2.1) heq
      simp only at this
      exact absurd this (by decide)
  set g2 := csvScoreStep e score g1 with hg2
  have e2 : g2.objects e propCsvMatchScore =
      g.objects e propCsvMatchScore ++ [.lit (.num score) none (some xsdFloat)] := by
    rw [hg2]
    unfold csvScoreStep
    rw [if_pos h, objects_add_same g1 rfl rfl hnot1, e1]
  set g3 := csvSimpleField e schemaBirthDate (dictGet row "birth") g2 with hg3
  have e3 : g3.objects e propCsvMatchScore = g2.objects e propCsvMatchScore :=
    csvSimpleField_pres _ (Or.inr (Or.inl (by decide)))
  set g4 := csvSimpleField e schemaDeathDate (dictGet row "death") g3 with hg4
  have e4 : g4.objects e propCsvMatchScore = g3.objects e propCsvMatchScore :=
    csvSimpleField_pres _ (Or.inr (Or.inl (by decide)))
  set g5 := csvSimpleField e schemaGender (dictGet row "gender") g4 with hg5
  have e5 : g5.objects e propCsvMatchScore = g4.objects e propCsvMatchScore :=
    csvSimpleField_pres _ (Or.inr (Or.inl (by decide)))
  set g6 := csvSimpleField e propHairColor (dictGet row "hair") g5 with hg6
  have e6 : g6.objects e propCsvMatchScore = g5.objects e propCsvMatchScore :=
    csvSimpleField_pres _ (Or.inr (Or.inl (by decide)))
  set g7 := csvSimpleField e schemaHeight (dictGet row "height") g6 with hg7
  have e7 : g7.objects e propCsvMatchScore = g6.objects e propCsvMatchScore :=
    csvSimpleField_pres _ (Or.inr (Or.inl (by decide)))
  set g8 := csvRaceStep e (dictGet row "race") g7 with hg8
  have e8 : g8.objects e propCsvMatchScore = g7.objects e propCsvMatchScore :=
    csvRaceStep_pres _ (Or.inr (Or.inl (by decide)))
  set g9 := csvRealmStep e (dictGet row "realm") g8 with hg9
  have e9 : g9.objects e propCsvMatchScore = g8.objects e propCsvMatchScore :=
    csvRealmStep_pres _ (Or.inr (Or.inl ⟨by decide, by decide⟩))
  set g10 := csvSpouseStep matcher index e (dictGet row "spouse") g9 with hg10
  have e10 : g10.objects e propCsvMatchScore = g9.objects e propCsvMatchScore :=
    csvSpouseStep_pres _ (Or.inr (Or.inl (by decide)))
  rw [csvProvStep_pres _ (Or.inr (by decide)), e10, e9, e8, e7, e6, e5, e4, e3, e2]

/-- The auxiliary CSV row of the end-to-end scenario in the spec. -/
def frodoRow : CsvRow := [("name", "Frodo Baggins"), ("height", "4ft")]

theorem csvScoreStep_not_lt {e : Node} {score : ℚ} {g : Graph}
    (h : ¬ score < 1) : csvScoreStep e score g = g := by
  unfold csvScoreStep
  rw [if_neg h]

/-- Merging the Frodo scenario row at confidence 1.0 into an entity with
no height fact yields exactly one height literal "4ft"@en. -/
theorem addCsv_frodo_height (matcher : String → String → ℚ)
    (index : List (String × String)) (g : Graph) (e : Node)
    (hh : g.objects e schemaHeight = []) :
    (addCsvCharacterTriples matcher index g e frodoRow 1).objects e
        schemaHeight = [.lit (.str "4ft") (some "en") none] := by
  have hb : dictGet frodoRow "birth" = none := rfl
  have hd : dictGet frodoRow "death" = none := rfl
  have hge : dictGet frodoRow "gender" = none := rfl
  have hha : dictGet frodoRow "hair" = none := rfl
  have hra : dictGet frodoRow "race" = none := rfl
  have hre : dictGet frodoRow "realm" = none := rfl
  have hsp : dictGet frodoRow "spouse" = none := rfl
  have hht : dictGet frodoRow "height" = some "4ft" := rfl
  have hnone : ∀ (pred : Node) (g1 : Graph), csvSimpleField e pred none g1 = g1 :=
    fun pred g1 => rfl
  simp only [addCsvCharacterTriples, hb, hd, hge, hha, hra, hre, hsp, hht, hnone,
    csvScoreStep_not_lt (lt_irrefl (1 : ℚ)),
    show ∀ g1 : Graph, csvRaceStep e none g1 = g1 from fun g1 => rfl,
    show ∀ g1 : Graph, csvRealmStep e none g1 = g1 from fun g1 => rfl,
    show ∀ g1 : Graph, csvSpouseStep matcher index e none g1 = g1 from fun g1 => rfl]
  set g1 := csvProvStep e g with hg1
  have e1 : g1.objects e schemaHeight = [] := by
    rw [hg1, csvProvStep_pres _ (Or.inr (by decide)), hh]
  have hcv : cleanValue (some "4ft") = some "4ft" := by decide
  have e2 : (csvSimpleField e schemaHeight (some "4ft") g1).objects e schemaHeight
      = [.lit (.str "4ft") (some "en") none] := by
    unfold csvSimpleField
    rw [hcv]
    dsimp only
    rw [if_pos (by rw [e1]; rfl),
      objects_add_same g1 rfl rfl (not_mem_of_objects_nil e1), e1]
    rfl
  rw [csvProvStep_pres _ (Or.inr (by decide)), e2]

/-- Graph-level first-write-wins for birth dates across a whole CSV
enrichment run: an entity that enters with a birth-date fact leaves every
row of the run with its birth-date facts untouched. -/
theorem enrichCsv_birthDate_pres (matcher : String → String → ℚ)
    (index : List (String × String)) (g : Graph) (e : Node)
    (rows : List CsvRow) (threshold : ℚ)
    (h : g.objects e schemaBirthDate ≠ []) :
    ((enrichWithCsv matcher index g (some rows) threshold).1).objects e
        schemaBirthDate = g.objects e schemaBirthDate := by
  simp only [enrichWithCsv]
  induction rows generalizing g with
  | nil => rfl
  | cons r rest ih =>
    rw [List.foldl_cons]
    have hstep : ∀ g1 : Graph, g1.objects e schemaBirthDate ≠ [] →
        ((fun (g2 : Graph) (charData : CsvRow) =>
          if pyStrip ((dictGet charData "name").getD "") = "" then g2
          else
            match findBestMatch matcher index
                (pyStrip ((dictGet charData "name").getD "")) threshold with
            | (none, _) => g2
            | (some entityUri, matchScore) =>
              addCsvCharacterTriples matcher index g2 (.uri entityUri) charData
                matchScore) g1 r).objects e schemaBirthDate =
          g1.objects e schemaBirthDate := by
      intro g1 h1
      dsimp only
      by_cases hnm : pyStrip ((dictGet r "name").getD "") = ""
      · rw [if_pos hnm]
      · rw [if_neg hnm]
        rcases hfb : findBestMatch matcher index
            (pyStrip ((dictGet r "name").getD "")) threshold with ⟨ou, sc⟩
        cases ou with
        | none => rfl
        | some u =>
          dsimp only
          rcases em (e = Node.uri u) with heq | hne
          · subst heq
            exact addCsv_objects_pres matcher index g1 (Node.uri u) r sc schemaBirthDate
              (by decide) (Or.inl (by decide)) (Or.inr h1) (Or.inl (by decide))
              (Or.inl (by decide)) (Or.inl (by decide)) (Or.inl (by decide))
              (Or.inl (by decide)) ⟨by decide, by decide⟩ (Or.inl (by decide))
          · exact addCsv_objects_ne_subject matcher index g1 (.uri u) r sc e
              schemaBirthDate hne
    have h2 := hstep g h
    rw [ih _ (by rw [h2]; exact h), h2]

/-! ### Lemmas about the fuzzy-match loop -/

/-- When every index key scores below the threshold, the loop keeps its
accumulator. -/
theorem fuzzyLoop_of_all_lt (matcher : String → String → ℚ) (nm : String)
    (threshold : ℚ) {l : List (String × String)}
    (h : ∀ kv ∈ l, similarityScore matcher nm kv.1 < threshold)
    (acc : Option String × ℚ) :
    fuzzyLoop matcher nm threshold l acc = acc := by
  induction l generalizing acc with
  | nil =>
    obtain ⟨bm, bs⟩ := acc
    rfl
  | cons kv rest ih =>
    obtain ⟨bm, bs⟩ := acc
    unfold fuzzyLoop
    rw [if_neg (fun hc => absurd (h kv (List.mem_cons_self kv rest)) (not_lt.mpr hc.2))]
    exact ih (fun x hx => h x (List.mem_cons_of_mem kv hx)) (bm, bs)

/-- The running best score never decreases. -/
theorem fuzzyLoop_snd_mono (matcher : String → String → ℚ) (nm : String)
    (threshold : ℚ) (l : List (String × String)) (acc : Option String × ℚ) :
    acc.2 ≤ (fuzzyLoop matcher nm threshold l acc).2 := by
  induction l generalizing acc with
  | nil =>
    obtain ⟨bm, bs⟩ := acc
    exact le_refl _
  | cons kv rest ih =>
    obtain ⟨bm, bs⟩ := acc
    unfold fuzzyLoop
    by_cases hc : bs < similarityScore matcher nm kv.1 ∧
        threshold ≤ similarityScore matcher nm kv.1
    · rw [if_pos hc]
      exact le_trans (le_of_lt hc.1) (ih (some kv.2, similarityScore matcher nm kv.1))
    · rw [if_neg hc]
      exact ih (bm, bs)

/-- The final best score dominates every threshold-passing key score. -/
theorem fuzzyLoop_ge_passing (matcher : String → String → ℚ) (nm : String)
    (threshold : ℚ) (l : List (String × String)) (acc : Option String × ℚ) :
    ∀ kv ∈ l, threshold ≤ similarityScore matcher nm kv.1 →
      similarityScore matcher nm kv.1 ≤ (fuzzyLoop matcher nm threshold l acc).2 := by
  induction l generalizing acc with
  | nil => intro kv hkv; exact absurd hkv (List.not_mem_nil kv)
  | cons kv0 rest ih =>
    intro kv hkv hth
    obtain ⟨bm, bs⟩ := acc
    unfold fuzzyLoop
    rcases List.mem_cons.mp hkv with rfl | hkv
    · by_cases hc : bs < similarityScore matcher nm kv.1 ∧
          threshold ≤ similarityScore matcher nm kv.1
      · rw [if_pos hc]
        exact le_trans (le_refl _)
          (fuzzyLoop_snd_mono matcher nm threshold rest (some kv.2, similarityScore matcher nm kv.1))
      · rw [if_neg hc]
        have hbs : similarityScore matcher nm kv.1 ≤ bs := by
          rcases not_and_or.mp hc with hc | hc

          · exact le_of_not_lt hc
          · exact absurd hth hc
        exact le_trans hbs (fuzzyLoop_snd_mono matcher nm threshold rest (bm, bs))
    · by_cases hc : bs < similarityScore matcher nm kv0.1 ∧
          threshold ≤ similarityScore matcher nm kv0.1
      · rw [if_pos hc]
        exact ih (some kv0.2, similarityScore matcher nm kv0.1) kv hkv hth
      · rw [if_neg hc]
        exact ih (bm, bs) kv hkv hth

/-- The loop either keeps its accumulator or ends on some index entry's
threshold-passing score. -/
theorem fuzzyLoop_provenance (matcher : String → String → ℚ) (nm : String)
    (threshold : ℚ) (l : List (String × String)) (acc : Option String × ℚ) :
    fuzzyLoop matcher nm threshold l acc = acc ∨
      ∃ kv ∈ l, fuzzyLoop matcher nm threshold l acc =
          (some kv.2, similarityScore matcher nm kv.1) ∧
        threshold ≤ similarityScore matcher nm kv.1 := by
  induction l generalizing acc with
  | nil =>
    obtain ⟨bm, bs⟩ := acc
    exact Or.inl rfl
  | cons kv0 rest ih =>
    obtain ⟨bm, bs⟩ := acc
    unfold fuzzyLoop
    by_cases hc : bs < similarityScore matcher nm kv0.1 ∧
        threshold ≤ similarityScore matcher nm kv0.1
    · rw [if_pos hc]
      rcases ih (some kv0.2, similarityScore matcher nm kv0.1) with heq | ⟨kv, hkv, heq, hth⟩
      · exact Or.inr ⟨kv0, List.mem_cons_self kv0 rest, heq, hc.2⟩
      · exact Or.inr ⟨kv, List.mem_cons_of_mem kv0 hkv, heq, hth⟩
    · rw [if_neg hc]
      rcases ih (bm, bs) with heq | ⟨kv, hkv, heq, hth⟩
      · exact Or.inl heq
      · exact Or.inr ⟨kv, List.mem_cons_of_mem kv0 hkv, heq, hth⟩

/-! ### Lemmas about the record assembly of Step 1 -/

/-- An invariant preserved by every fold step holds of the fold. -/
theorem foldl_preserve {α β : Type} (P : β → Prop) {step : β → α → β}
    {l : List α} {init : β} (hinit : P init)
    (hstep : ∀ b a, a ∈ l → P b → P (step b a)) : P (l.foldl step init) := by
  induction l generalizing init with
  | nil => exact hinit
  | cons a rest ih =>
    exact ih (hstep init a (List.mem_cons_self a rest) hinit)
      (fun b x hx => hstep b x (List.mem_cons_of_mem a hx))

/-- Dict assignment only introduces the assigned pair. -/
theorem mem_dictInsert {α : Type} {d : List (String × α)} {k : String} {v : α}
    {kv : String × α} (h : kv ∈ dictInsert d k v) : kv ∈ d ∨ kv = (k, v) := by
  induction d with
  | nil =>
    unfold dictInsert at h
    rcases List.mem_cons.mp h with heq | hmem
    · exact Or.inr heq
    · exact absurd hmem (List.not_mem_nil kv)
  | cons kv0 rest ih =>
    unfold dictInsert at h
    by_cases hk : kv0.1 = k
    · rw [if_pos hk] at h
      rcases List.mem_cons.mp h with heq | hmem
      · exact Or.inr heq
      · exact Or.inl (List.mem_cons_of_mem kv0 hmem)
    · rw [if_neg hk] at h
      rcases List.mem_cons.mp h with heq | hmem
      · exact Or.inl (heq ▸ List.mem_cons_self kv0 rest)
      · rcases ih hmem with hmem | heq
        · exact Or.inl (List.mem_cons_of_mem kv0 hmem)
        · exact Or.inr heq

/-! ### The claims -/

/-- C9: if an external auxiliary dataset file (the METW cards file or the
character CSV file) does not exist, the corresponding enrichment method
returns immediately after printing a warning: the graph comes back
unchanged (zero facts added), no error is raised (the functions are total
and return normally), and the rest of the pipeline continues. -/
theorem c9_missing_file_skips_enrichment (matcher : String → String → ℚ)
    (index : List (String × String)) (g : Graph) (threshold : ℚ) :
    enrichWithMetw matcher index g none threshold =
      (g, ["WARNING: METW cards file not found", "Skipping METW enrichment..."]) ∧
    enrichWithCsv matcher index g none threshold =
      (g, ["WARNING: CSV file not found", "Skipping CSV enrichment..."]) :=
  ⟨rfl, rfl⟩

/-- C10: an infobox attribute whose cleaned value is empty or
whitespace-only produces zero facts for that attribute — neither a literal
fact nor any reference-typed fact, even when its internal-links list is
non-empty — because the empty-value check precedes the link/literal
branch. -/
theorem c10_empty_cleaned_attribute_no_facts (g : Graph)
    (resourceUri field : String) (vd : AttrValue)
    (rest : List (String × AttrValue)) (h : pyStrip vd.cleaned = "") :
    addInfoboxTriples g resourceUri ((field, vd) :: rest) =
      addInfoboxTriples g resourceUri rest := by
  unfold addInfoboxTriples
  rw [List.foldl_cons]
  congr 1
  dsimp only
  rw [if_pos (Or.inr h)]

/-- Witness for C10: a whitespace-only cleaned value with a non-empty link
list adds nothing to an empty graph. -/
theorem c10_witness :
    addInfoboxTriples [] "Frodo"
      [("race", AttrValue.mk "<!--[[Hobbit]]-->" " " ["Hobbit"])] = [] := by
  rw [c10_empty_cleaned_attribute_no_facts [] "Frodo" "race"
    (AttrValue.mk "<!--[[Hobbit]]-->" " " ["Hobbit"]) [] (by decide)]
  rfl

/-- C8: the character shape carries the closed-value gender constraint
(exactly the literals Male, Female, Unknown) iff the observed count of the
gender attribute across records tagged 'infobox character' exceeds the
fixed absolute raw-count threshold 100 — an absolute count over the
corpus, not a per-class percentage. -/
theorem c8_gender_enum_iff_count (entities : List NormEntity)
    (totalCharacters : Nat) :
    (∃ c ∈ createCharacterShape entities totalCharacters,
        c.inList = some [.lit (.str "Male") none none,
          .lit (.str "Female") none none, .lit (.str "Unknown") none none]) ↔
      propertyUsageCount entities "infobox character" "gender" > 100 := by
  by_cases hg : propertyUsageCount entities "infobox character" "gender" > 100 <;>
    by_cases hr : propertyUsageCount entities "infobox character" "race" > 100 <;>
      by_cases hb : propertyUsageCount entities "infobox character" "birthPlace" > 50 <;>
        simp [createCharacterShape, hg, hr, hb, nameConstraint, genderConstraint,
          raceConstraint, birthPlaceConstraint, genderList]

/-- C6 counterexample: the override table maps parentage to itself, not to
parent; normalize_key("parentage") returns "parentage", refuting the
claimed parentage-to-parent mapping.  (The parentage-to-schema:parent
collapse happens later, in the fact builder's property vocabulary.) -/
theorem c6_counterexample :
    normalizeKey "parentage" = "parentage" ∧ normalizeKey "parentage" ≠ "parent" := by
  exact ⟨rfl, by decide⟩

/-- C6 (amended): the key normalizer's fixed override table maps
birth_date to birthDate, and maps parentage to itself (parentage), not to
parent: for every raw key whose lowercased, trimmed, space-to-underscore
form equals "parentage", normalize_key returns "parentage". -/
theorem c6_override_table (key : String) :
    (pyReplace (pyLower (pyStrip key)) " " "_" = "birth_date" →
      normalizeKey key = "birthDate") ∧
    (pyReplace (pyLower (pyStrip key)) " " "_" = "parentage" →
      normalizeKey key = "parentage") := by
  constructor
  · intro h
    simp only [normalizeKey, h]
    rfl
  · intro h
    simp only [normalizeKey, h]
    rfl

/-- Witness for C6: concrete keys reaching both override entries. -/
theorem c6_witness :
    normalizeKey "Birth Date" = "birthDate" ∧
    normalizeKey " Parentage " = "parentage" :=
  ⟨(c6_override_table "Birth Date").1 (by decide),
   (c6_override_table " Parentage ").2 (by decide)⟩

/-- The gender branch of create_typed_literal in isolation: for the field
"gender" the date and numeric branches are skipped and the closed
three-way normalization applies. -/
theorem createTypedLiteral_gender_spec (value : String) :
    createTypedLiteral value "gender" =
      (if pyLower (pyStrip value) = "male" then Node.lit (.str "Male") none none
       else if pyLower (pyStrip value) = "female" then
        Node.lit (.str "Female") none none
       else Node.lit (.str "Unknown") none none) := rfl

/-- C3 counterexample: the input "female" is not one of the three listed
male spellings, yet it normalizes to "Female", not to "Unknown" — refuting
the claim's clause that any input other than a male spelling normalizes to
"Unknown". -/
theorem c3_counterexample :
    createTypedLiteral "female" "gender" = .lit (.str "Female") none none ∧
    createTypedLiteral "female" "gender" ≠ .lit (.str "Unknown") none none := by
  exact ⟨rfl, by decide⟩

/-- C3 (amended): for the attribute named exactly "gender" the literal is
emitted with no language tag and no datatype; values whose trimmed,
lowercased form is "male" normalize to "Male", those whose form is
"female" normalize to "Female", and every other input normalizes to
"Unknown"; in particular "male", "MALE" and "Male " all give "Male". -/
theorem c3_gender_normalization (value : String) :
    (pyLower (pyStrip value) = "male" →
      createTypedLiteral value "gender" = .lit (.str "Male") none none) ∧
    (pyLower (pyStrip value) = "female" →
      createTypedLiteral value "gender" = .lit (.str "Female") none none) ∧
    (pyLower (pyStrip value) ≠ "male" → pyLower (pyStrip value) ≠ "female" →
      createTypedLiteral value "gender" = .lit (.str "Unknown") none none) ∧
    createTypedLiteral "male" "gender" = .lit (.str "Male") none none ∧
    createTypedLiteral "MALE" "gender" = .lit (.str "Male") none none ∧
    createTypedLiteral "Male " "gender" = .lit (.str "Male") none none := by
  refine ⟨?_, ?_, ?_, rfl, rfl, rfl⟩
  · intro h
    rw [createTypedLiteral_gender_spec, if_pos h]
  · intro h
    rw [createTypedLiteral_gender_spec]
    rw [if_neg (by rw [h]; decide), if_pos h]
  · intro h1 h2
    rw [createTypedLiteral_gender_spec, if_neg h1, if_neg h2]

/-- Witness for C3: a spelling with mixed case and whitespace reaches the
male branch through the amended theorem. -/
theorem c3_witness :
    createTypedLiteral " MALE " "gender" = .lit (.str "Male") none none :=
  (c3_gender_normalization " MALE ").1 (by decide)

/-- C4 counterexample: an attribute whose links list is non-empty but
whose cleaned text is empty (raw value that is pure markup, e.g. a wiki
link inside an HTML comment) produces NO reference fact, because the
empty-value check runs first — refuting the claim that a non-empty link
list always yields one reference fact per link. -/
theorem c4_counterexample :
    (AttrValue.mk "<!--[[Hobbit]]-->" "" ["Hobbit"]).internal_links ≠ [] ∧
    ((.uri (RESOURCE "Frodo") : Node), propFor "race",
        (.uri (RESOURCE "Hobbit") : Node)) ∉
      addInfoboxTriples [] (RESOURCE "Frodo")
        [("race", AttrValue.mk "<!--[[Hobbit]]-->" "" ["Hobbit"])] := by
  exact ⟨by decide, by decide⟩

/-- C4 (amended): for an attribute whose cleaned value is non-empty, a
non-empty extracted-links list yields one reference-typed fact per linked
entity id under the attribute's predicate and no new literal fact under
that predicate (any literal there was already in the graph); a literal
fact is emitted only when the link list is empty — link facts and literal
facts for the same attribute are mutually exclusive.  Attributes whose
cleaned value is empty emit nothing at all, links or not (claim C10). -/
theorem c4_links_suppress_literal (g : Graph) (resourceUri field : String)
    (vd : AttrValue) (h : pyStrip vd.cleaned ≠ "") :
    (vd.internal_links ≠ [] →
      (∀ link ∈ vd.internal_links,
        ((.uri resourceUri : Node), propFor field,
            (.uri (createUri link "resource") : Node)) ∈
          addInfoboxTriples g resourceUri [(field, vd)]) ∧
      (∀ lv lang dt,
        ((.uri resourceUri : Node), propFor field, (.lit lv lang dt : Node)) ∈
            addInfoboxTriples g resourceUri [(field, vd)] →
          ((.uri resourceUri : Node), propFor field, (.lit lv lang dt : Node)) ∈ g)) ∧
    (vd.internal_links = [] →
      addInfoboxTriples g resourceUri [(field, vd)] =
        g.add (.uri resourceUri, propFor field,
          createTypedLiteral vd.cleaned field)) := by
  have hcond : ¬(vd.cleaned = "" ∨ pyStrip vd.cleaned = "") := by
    rintro (hc | hc)
    · exact h (by rw [hc]; rfl)
    · exact h hc
  have hstep : addInfoboxTriples g resourceUri [(field, vd)] =
      (if vd.internal_links ≠ [] then
        vd.internal_links.foldl
          (fun g1 link => g1.add (.uri resourceUri, propFor field,
            .uri (createUri link "resource"))) g
       else g.add (.uri resourceUri, propFor field,
        createTypedLiteral vd.cleaned field)) := by
    unfold addInfoboxTriples
    rw [List.foldl_cons, List.foldl_nil]
    dsimp only
    rw [if_neg hcond]
  constructor
  · intro hlink
    rw [hstep, if_pos hlink]
    constructor
    · intro link hl
      exact (mem_foldl_add
        (fun link => ((.uri resourceUri : Node), propFor field,
          (.uri (createUri link "resource") : Node)))
        vd.internal_links g _).mpr (Or.inr ⟨link, hl, rfl⟩)
    · intro lv lang dt hmem
      rcases (mem_foldl_add
          (fun link => ((.uri resourceUri : Node), propFor field,
            (.uri (createUri link "resource") : Node)))
          vd.internal_links g _).mp hmem with hg | ⟨x, _, heq⟩
      · exact hg
      · exact absurd (congrArg (fun t : Triple => t.2.2) heq)
          (by simp)
  · intro hnil
    rw [hstep, if_neg (fun hc => hc hnil)]

/-- Witness for C4: a linked race attribute produces the reference fact. -/
theorem c4_witness :
    ((.uri (RESOURCE "Frodo") : Node), propFor "race",
        (.uri (createUri "Hobbit" "resource") : Node)) ∈
      addInfoboxTriples [] (RESOURCE "Frodo")
        [("race", AttrValue.mk "[[Hobbit]]" "Hobbit" ["Hobbit"])] :=
  ((c4_links_suppress_literal [] (RESOURCE "Frodo") "race"
    (AttrValue.mk "[[Hobbit]]" "Hobbit" ["Hobbit"]) (by decide)).1
      (by decide)).1 "Hobbit" (by decide)

/-- C5 counterexample: a parameter whose raw value is non-empty pure
markup survives the empty-raw filter of parse_infobox_template, but the
markup stripper erases it entirely, so the produced record retains the
attribute with an EMPTY cleaned value — refuting the claim that such
attributes are dropped before the record is produced.  The stripper stub
(fun _ => "") reproduces mwparserfromhell.strip_code's output on a value
consisting solely of a template, such as the raw text used here; the
ref-removal stub is the identity, as in the source's regexes applied to
text with no ref tags. -/
theorem c5_counterexample :
    parseInfoboxTemplate (cleanWikitextValue (fun _ => "") (fun s => s))
      (fun _ => [])
      [⟨"Infobox character", [("status", "\x7b\x7bcitation needed\x7d\x7d")]⟩] =
      some ("Infobox character",
        [("status", AttrValue.mk "\x7b\x7bcitation needed\x7d\x7d" "" [])]) ∧
    ∃ kv ∈ parseInfoboxParams (cleanWikitextValue (fun _ => "") (fun s => s))
        (fun _ => []) [("status", "\x7b\x7bcitation needed\x7d\x7d")],
      kv.2.cleaned = "" := by
  refine ⟨rfl, ⟨("status", AttrValue.mk "\x7b\x7bcitation needed\x7d\x7d" "" []),
    by decide, rfl⟩⟩

/-- C5 (amended): the record drops exactly the attributes whose RAW value
is empty after trimming: every attribute present in the produced record
has a non-empty raw value.  An attribute whose raw text is non-empty
markup can remain with an empty cleaned value (see the counterexample),
so emptiness of the cleaned text is not what is filtered. -/
theorem c5_kept_attributes_raw_nonempty (clean : String → String)
    (extractLinks : String → List String)
    (templateParams : List (String × String)) :
    ∀ kv ∈ parseInfoboxParams clean extractLinks templateParams,
      kv.2.raw ≠ "" := by
  unfold parseInfoboxParams
  refine foldl_preserve
    (fun (acc : List (String × AttrValue)) => ∀ kv ∈ acc, kv.2.raw ≠ "") ?_ ?_
  · intro kv hkv
    exact absurd hkv (List.not_mem_nil kv)
  · intro acc kv0 _ hP kv hkv
    dsimp only at hkv
    by_cases hv : pyStrip kv0.2 = ""
    · rw [if_pos hv] at hkv
      exact hP kv hkv
    · rw [if_neg hv] at hkv
      rcases mem_dictInsert hkv with hold | hnew
      · exact hP kv hold
      · rw [hnew]
        exact hv

/-- Witness for C5: a kept attribute of a concrete parameter list has a
non-empty raw value. -/
theorem c5_witness :
    (("gender", AttrValue.mk "male" "male" []) : String × AttrValue).2.raw ≠ "" :=
  c5_kept_attributes_raw_nonempty (fun s => s) (fun _ => [])
    [("gender", "male")] ("gender", AttrValue.mk "male" "male" []) (by decide)

/-- C2: find_best_match proceeds in strict priority order with first match
winning: an exact lowercased key hit returns that entry with confidence
1.0; otherwise an exact lowercase-no-spaces hit returns that entry with
confidence 1.0; otherwise the fuzzy scan returns an entry whose similarity
is highest over all index keys, accepted only when that best ratio is at
least the threshold, and returns (none, 0) — the record is skipped, never
fatally — when no key reaches the threshold. -/
theorem c2_find_best_match_spec (matcher : String → String → ℚ)
    (index : List (String × String)) (nm : String) (threshold : ℚ) :
    (∀ u, dictGet index (pyLower nm) = some u →
      findBestMatch matcher index nm threshold = (some u, 1)) ∧
    (dictGet index (pyLower nm) = none →
      ∀ u, dictGet index (pyReplace (pyLower nm) " " "") = some u →
        findBestMatch matcher index nm threshold = (some u, 1)) ∧
    (dictGet index (pyLower nm) = none →
      dictGet index (pyReplace (pyLower nm) " " "") = none →
      ((∀ kv ∈ index, similarityScore matcher nm kv.1 < threshold) →
        findBestMatch matcher index nm threshold = (none, 0)) ∧
      (0 < threshold →
        (∃ kv ∈ index, threshold ≤ similarityScore matcher nm kv.1) →
        ∃ kv ∈ index,
          findBestMatch matcher index nm threshold =
            (some kv.2, similarityScore matcher nm kv.1) ∧
          threshold ≤ similarityScore matcher nm kv.1 ∧
          ∀ kv2 ∈ index,
            similarityScore matcher nm kv2.1 ≤ similarityScore matcher nm kv.1)) := by
  refine ⟨?_, ?_, ?_⟩
  · intro u h
    simp only [findBestMatch, h]
  · intro h1 u h2
    simp only [findBestMatch, h1, h2]
  · intro h1 h2
    constructor
    · intro hall
      simp only [findBestMatch, h1, h2]
      rw [fuzzyLoop_of_all_lt matcher nm threshold hall (none, 0)]
    · intro hpos hex
      obtain ⟨kv0, hkv0, hth0⟩ := hex
      have hge := fuzzyLoop_ge_passing matcher nm threshold index
        ((none : Option String), (0 : ℚ)) kv0 hkv0 hth0
      rcases fuzzyLoop_provenance matcher nm threshold index
          ((none : Option String), (0 : ℚ)) with heq | ⟨kv, hkv, heq, hth⟩
      · rw [heq] at hge
        exact absurd hpos (not_lt.mpr (le_trans hth0 hge))
      · refine ⟨kv, hkv, ?_, hth, ?_⟩
        · simp only [findBestMatch, h1, h2, heq]
        · intro kv2 hkv2
          by_cases hth2 : threshold ≤ similarityScore matcher nm kv2.1
          · have := fuzzyLoop_ge_passing matcher nm threshold index
              ((none : Option String), (0 : ℚ)) kv2 hkv2 hth2
            rw [heq] at this
            exact this
          · exact le_trans (le_of_lt (not_le.mp hth2)) hth

/-- Witness for C2: an exact lowercased hit at the default threshold. -/
theorem c2_witness :
    findBestMatch (fun _ _ => 0) [("frodo baggins", "u1")] "Frodo Baggins"
      (17/20) = (some "u1", 1) :=
  (c2_find_best_match_spec (fun _ _ => 0) [("frodo baggins", "u1")]
    "Frodo Baggins" (17/20)).1 "u1" (by decide)

/-- C1: first-source-wins for the single-valued CSV attributes — for each
of birth, death, gender, hair and height, merging a matched CSV row adds a
fact under that attribute's predicate only if the target entity has zero
existing facts under that exact predicate, so an entity with existing
facts there comes out unchanged; and an entity that already has a
schema:birthDate fact keeps its birth-date facts unchanged (no
modification, no duplicate) across a whole CSV enrichment run with
conflicting rows. -/
theorem c1_csv_first_write_wins (matcher : String → String → ℚ)
    (index : List (String × String)) (g : Graph) (e : Node) (row : CsvRow)
    (score : ℚ) (rows : List CsvRow) (threshold : ℚ) :
    (g.objects e schemaBirthDate ≠ [] →
      (addCsvCharacterTriples matcher index g e row score).objects e
        schemaBirthDate = g.objects e schemaBirthDate) ∧
    (g.objects e schemaDeathDate ≠ [] →
      (addCsvCharacterTriples matcher index g e row score).objects e
        schemaDeathDate = g.objects e schemaDeathDate) ∧
    (g.objects e schemaGender ≠ [] →
      (addCsvCharacterTriples matcher index g e row score).objects e
        schemaGender = g.objects e schemaGender) ∧
    (g.objects e propHairColor ≠ [] →
      (addCsvCharacterTriples matcher index g e row score).objects e
        propHairColor = g.objects e propHairColor) ∧
    (g.objects e schemaHeight ≠ [] →
      (addCsvCharacterTriples matcher index g e row score).objects e
        schemaHeight = g.objects e schemaHeight) ∧
    (g.objects e schemaBirthDate ≠ [] →
      ((enrichWithCsv matcher index g (some rows) threshold).1).objects e
        schemaBirthDate = g.objects e schemaBirthDate) := by
  refine ⟨?_, ?_, ?_, ?_, ?_, ?_⟩
  · intro h
    exact addCsv_objects_pres matcher index g e row score schemaBirthDate
      (by decide) (Or.inl (by decide)) (Or.inr h) (Or.inl (by decide))
      (Or.inl (by decide)) (Or.inl (by decide)) (Or.inl (by decide))
      (Or.inl (by decide)) ⟨by decide, by decide⟩ (Or.inl (by decide))
  · intro h
    exact addCsv_objects_pres matcher index g e row score schemaDeathDate
      (by decide) (Or.inl (by decide)) (Or.inl (by decide)) (Or.inr h)
      (Or.inl (by decide)) (Or.inl (by decide)) (Or.inl (by decide))
      (Or.inl (by decide)) ⟨by decide, by decide⟩ (Or.inl (by decide))
  · intro h
    exact addCsv_objects_pres matcher index g e row score schemaGender
      (by decide) (Or.inl (by decide)) (Or.inl (by decide))
      (Or.inl (by decide)) (Or.inr h) (Or.inl (by decide))
      (Or.inl (by decide)) (Or.inl (by decide)) ⟨by decide, by decide⟩
      (Or.inl (by decide))
  · intro h
    exact addCsv_objects_pres matcher index g e row score propHairColor
      (by decide) (Or.inl (by decide)) (Or.inl (by decide))
      (Or.inl (by decide)) (Or.inl (by decide)) (Or.inr h)
      (Or.inl (by decide)) (Or.inl (by decide)) ⟨by decide, by decide⟩
      (Or.inl (by decide))
  · intro h
    exact addCsv_objects_pres matcher index g e row score schemaHeight
      (by decide) (Or.inl (by decide)) (Or.inl (by decide))
      (Or.inl (by decide)) (Or.inl (by decide)) (Or.inl (by decide))
      (Or.inr h) (Or.inl (by decide)) ⟨by decide, by decide⟩
      (Or.inl (by decide))
  · intro h
    exact enrichCsv_birthDate_pres matcher index g e rows threshold h

/-- Witness for C1: an entity with an existing birth-date fact is merged
with a row carrying a conflicting birth value; its birth-date facts come
back unchanged. -/
theorem c1_witness :
    (addCsvCharacterTriples (fun _ _ => 0) []
        [((Node.uri "e"), schemaBirthDate,
          Node.lit (.str "TA 2968") (some "en") none)]
        (Node.uri "e") [("birth", "SR 1368")] 1).objects (Node.uri "e")
      schemaBirthDate =
    Graph.objects
      [((Node.uri "e"), schemaBirthDate,
        Node.lit (.str "TA 2968") (some "en") none)]
      (Node.uri "e") schemaBirthDate :=
  (c1_csv_first_write_wins (fun _ _ => 0) []
    [((Node.uri "e"), schemaBirthDate,
      Node.lit (.str "TA 2968") (some "en") none)]
    (Node.uri "e") [("birth", "SR 1368")] 1 [] (17/20)).1 (by decide)

/-- C7: a row matched with confidence exactly 1.0 adds no csvMatchScore
fact (those facts come back unchanged), while a row matched with
confidence strictly below 1.0 receives one; and in the scenario of a row
name="Frodo Baggins", height="4ft" matched at confidence 1.0 against an
entity with no prior height fact, exactly one height literal fact and zero
matchScore facts are added. -/
theorem c7_match_score_policy (matcher : String → String → ℚ)
    (index : List (String × String)) (g : Graph) (e : Node) (row : CsvRow)
    (score : ℚ) :
    (score = 1 →
      (addCsvCharacterTriples matcher index g e row score).objects e
        propCsvMatchScore = g.objects e propCsvMatchScore) ∧
    (score < 1 →
      ((e, propCsvMatchScore, .lit (.num score) none (some xsdFloat)) ∈
        addCsvCharacterTriples matcher index g e row score) ∧
      ((e, propCsvMatchScore, .lit (.num score) none (some xsdFloat)) ∉ g →
        (addCsvCharacterTriples matcher index g e row score).objects e
          propCsvMatchScore =
        g.objects e propCsvMatchScore ++
          [.lit (.num score) none (some xsdFloat)])) ∧
    (g.objects e schemaHeight = [] →
      (addCsvCharacterTriples matcher index g e frodoRow 1).objects e
          schemaHeight = [.lit (.str "4ft") (some "en") none] ∧
      (addCsvCharacterTriples matcher index g e frodoRow 1).objects e
        propCsvMatchScore = g.objects e propCsvMatchScore) := by
  refine ⟨?_, ?_, ?_⟩
  · intro h1
    subst h1
    exact addCsv_objects_pres matcher index g e row 1 propCsvMatchScore
      (by decide) (Or.inr (by norm_num)) (Or.inl (by decide))
      (Or.inl (by decide)) (Or.inl (by decide)) (Or.inl (by decide))
      (Or.inl (by decide)) (Or.inl (by decide)) ⟨by decide, by decide⟩
      (Or.inl (by decide))
  · intro h
    exact ⟨addCsv_scoreTriple_mem matcher index g e row score h,
      fun hn => addCsv_scoreTriple_exact matcher index g e row score h hn⟩
  · intro hh
    refine ⟨addCsv_frodo_height matcher index g e hh, ?_⟩
    exact addCsv_objects_pres matcher index g e frodoRow 1 propCsvMatchScore
      (by decide) (Or.inr (by norm_num)) (Or.inl (by decide))
      (Or.inl (by decide)) (Or.inl (by decide)) (Or.inl (by decide))
      (Or.inl (by decide)) (Or.inl (by decide)) ⟨by decide, by decide⟩
      (Or.inl (by decide))

/-- Witness for C7: the Frodo scenario row merged at confidence 1.0 into
an empty graph yields exactly the single height fact. -/
theorem c7_witness :
    (addCsvCharacterTriples (fun _ _ => 0) [] [] (Node.uri "e") frodoRow
        1).objects (Node.uri "e") schemaHeight =
      [.lit (.str "4ft") (some "en") none] :=
  ((c7_match_score_policy (fun _ _ => 0) [] [] (Node.uri "e") frodoRow
    1).2.2 (by decide)).1

end SemWeb
